import Mathlib

/-!
Verification development for the SPE monitor (monitor.js).

The file gives a shallow embedding of the programs core logic:
JavaScript field values, records, the keyed snapshot, the diff engine
(detectChanges), the scope filter (filterChangesForSubscriber), the
paginated fetch loop (fetchAllData, modelled with explicit fuel and an
event trace for sleeps and fetch attempts), and the persistence-relevant
control flow of main.  Theorems about the specification follow the
definitions.
-/

set_option maxRecDepth 4000

namespace SpeMonitor

/-- A JavaScript field value as it occurs in the monitored records:
null, undefined (also standing for an absent property), a string,
an integer number, or a boolean. -/
inductive JsValue where
  | null
  | undefined
  | str (s : String)
  | num (n : Int)
  | bool (b : Bool)
deriving DecidableEq, Repr

/-- JavaScript String(v) conversion. -/
def jsStr : JsValue → String
  | .null => "null"
  | .undefined => "undefined"
  | .str s => s
  | .num n => toString n
  | .bool b => if b then "true" else "false"

/-- JavaScript truthiness of a value. -/
def jsTruthy : JsValue → Bool
  | .null => false
  | .undefined => false
  | .str s => s ≠ ""
  | .num n => n ≠ 0
  | .bool b => b

/-- The normalisation used by detectChanges before comparing field values:
null and undefined become the empty string, anything else is stringified
(oldValue === null || oldValue === undefined ? '' : String(oldValue)). -/
def normVal (v : JsValue) : String :=
  match v with
  | .null => ""
  | .undefined => ""
  | v => jsStr v

/-- A record (one establishment), as a JavaScript object: a list of
property-value pairs.  Absent properties read as undefined. -/
abbrev Record := List (String × JsValue)

/-- Property access item[f]: the first binding of f, undefined if absent. -/
def getField (r : Record) (f : String) : JsValue :=
  match List.find? (fun p => p.1 == f) r with
  | some p => p.2
  | none => .undefined

/-- The identifier property item.id. -/
def getId (r : Record) : JsValue := getField r "id"

/-- MONITORED_FIELDS from monitor.js. -/
def MONITORED_FIELDS : List String :=
  ["name", "siret", "city", "department_lib", "region_lib",
   "line_ministry", "sector_list", "daily_meal_count", "yearly_meal_count",
   "production_type", "management_type", "economic_model",
   "active_on_ma_cantine", "has_active_manager"]

/-- FIELD_LABELS from monitor.js. -/
def FIELD_LABELS : List (String × String) :=
  [("name", "Nom"), ("siret", "SIRET"), ("city", "Ville"),
   ("department_lib", "Departement"), ("region_lib", "Region"),
   ("line_ministry", "Ministere de tutelle"), ("sector_list", "Secteur"),
   ("daily_meal_count", "Couverts/jour"), ("yearly_meal_count", "Couverts/an"),
   ("production_type", "Type de production"), ("management_type", "Type de gestion"),
   ("economic_model", "Modele economique"),
   ("active_on_ma_cantine", "Actif sur ma-cantine"),
   ("has_active_manager", "Gestionnaire actif")]

/-- Label lookup FIELD_LABELS[field] || field. -/
def labelOf (field : String) : String :=
  match List.find? (fun p => p.1 == field) FIELD_LABELS with
  | some p => p.2
  | none => field

/-- One field-level modification entry as pushed by detectChanges. -/
structure Modification where
  champ : String
  label : String
  ancienne_valeur : JsValue
  nouvelle_valeur : JsValue
deriving DecidableEq, Repr

/-- The per-record field comparison loop of detectChanges: one
modification per monitored field whose normalised old and new values
differ. -/
def fieldDiffs (previous item : Record) : List Modification :=
  MONITORED_FIELDS.filterMap (fun field =>
    let oldValue := getField previous field
    let newValue := getField item field
    if normVal oldValue ≠ normVal newValue then
      some { champ := field, label := labelOf field,
             ancienne_valeur := oldValue, nouvelle_valeur := newValue }
    else none)

/-- A keyed snapshot: a JavaScript object mapping string keys to records,
kept in insertion order. -/
abbrev Snapshot := List (String × Record)

/-- Whether the object has the key (id in obj). -/
def hasKeySnap (m : Snapshot) (k : String) : Bool :=
  m.any (fun kv => kv.1 == k)

/-- Property read obj[k]: first binding, none if absent. -/
def lookupSnap (m : Snapshot) (k : String) : Option Record :=
  (List.find? (fun kv => kv.1 == k) m).map (fun kv => kv.2)

/-- JavaScript object assignment obj[k] = v: overwrite in place when the
key exists, append otherwise. -/
def jsInsert (m : Snapshot) (k : String) (v : Record) : Snapshot :=
  if m.any (fun kv => kv.1 == k) then
    m.map (fun kv => if kv.1 == k then (k, v) else kv)
  else
    m ++ [(k, v)]

/-- Indexing a record sequence by id, skipping records with a falsy id:
the loop shared by saveCurrentState and the currentIndexed object of
detectChanges (indexed[item.id] = item guarded by if (item.id)). -/
def indexById (data : List Record) : Snapshot :=
  data.foldl
    (fun m item =>
      if jsTruthy (getId item) then jsInsert m (jsStr (getId item)) item else m)
    []

/-- The pure content of saveCurrentState: the snapshot that is persisted
and returned (the file write itself is an external effect). -/
def saveCurrentState (data : List Record) : Snapshot := indexById data

/-- One entry of the nouveaux, modifies or supprimes sequences.  Entries
of nouveaux and supprimes carry no ancienMinistere and no modifications
in the source; reading those absent properties yields undefined, which
the embedding represents with the explicit defaults below. -/
structure ChangeEntry where
  id : JsValue
  etablissement : Record
  ministere : JsValue
  region : JsValue
  ancienMinistere : JsValue := .undefined
  modifications : List Modification := []
deriving DecidableEq, Repr

/-- The entry pushed onto changes.nouveaux. -/
def addedEntry (item : Record) : ChangeEntry :=
  { id := getId item, etablissement := item,
    ministere := getField item "line_ministry",
    region := getField item "region_lib" }

/-- The entry pushed onto changes.modifies. -/
def modifiedEntry (previous item : Record) (mods : List Modification) : ChangeEntry :=
  { id := getId item, etablissement := item,
    ministere := getField item "line_ministry",
    region := getField item "region_lib",
    ancienMinistere := getField previous "line_ministry",
    modifications := mods }

/-- The entry pushed onto changes.supprimes (id is the string object key). -/
def removedEntry (k : String) (item : Record) : ChangeEntry :=
  { id := .str k, etablissement := item,
    ministere := getField item "line_ministry",
    region := getField item "region_lib" }

/-- The change set returned by detectChanges. -/
structure Changes where
  nouveaux : List ChangeEntry
  modifies : List ChangeEntry
  supprimes : List ChangeEntry
  timestamp : String
deriving DecidableEq, Repr

/-- Classification of one current record as added: truthy id and absent
from the previous snapshot. -/
def addedOf (previousState : Snapshot) (item : Record) : Option ChangeEntry :=
  if jsTruthy (getId item) && (lookupSnap previousState (jsStr (getId item))).isNone then
    some (addedEntry item)
  else none

/-- Classification of one current record as modified: truthy id, present
in the previous snapshot, and at least one monitored field differs. -/
def modifiedOf (previousState : Snapshot) (item : Record) : Option ChangeEntry :=
  if jsTruthy (getId item) then
    match lookupSnap previousState (jsStr (getId item)) with
    | some previous =>
        if (fieldDiffs previous item).isEmpty then none
        else some (modifiedEntry previous item (fieldDiffs previous item))
    | none => none
  else none

/-- Classification of one previous binding as removed: its key is absent
from the current index. -/
def removedOf (currentIndexed : Snapshot) (kv : String × Record) : Option ChangeEntry :=
  if hasKeySnap currentIndexed kv.1 then none
  else some (removedEntry kv.1 kv.2)

/-- detectChanges from monitor.js.  The source interleaves building
currentIndexed with the classification of each current record, but the
classification never reads currentIndexed (only the previous snapshot),
so the passes are split here; currentIndexed is exactly indexById of the
current data.  The timestamp, new Date().toISOString() in the source, is
a parameter. -/
def detectChanges (previousState : Snapshot) (currentData : List Record)
    (ts : String) : Changes :=
  { nouveaux := currentData.filterMap (addedOf previousState)
  , modifies := currentData.filterMap (modifiedOf previousState)
  , supprimes := previousState.filterMap (removedOf (indexById currentData))
  , timestamp := ts }

/-- Membership test perimetres.includes(v) against a list of string
scope tokens (strict equality, no coercion). -/
def includesVal (perimetres : List String) (v : JsValue) : Bool :=
  match v with
  | .str s => perimetres.contains s
  | _ => false

/-- The filterItem predicate of filterChangesForSubscriber: current
ministry in scope, or current region in scope, or a truthy previous
ministry in scope. -/
def filterItem (perimetres : List String) (item : ChangeEntry) : Bool :=
  includesVal perimetres item.ministere ||
  includesVal perimetres item.region ||
  (jsTruthy item.ancienMinistere && includesVal perimetres item.ancienMinistere)

/-- filterChangesForSubscriber from monitor.js. -/
def filterChangesForSubscriber (changes : Changes) (perimetres : List String) : Changes :=
  if perimetres.contains "ALL" then changes
  else
    { nouveaux := changes.nouveaux.filter (filterItem perimetres)
    , modifies := changes.modifies.filter (filterItem perimetres)
    , supprimes := changes.supprimes.filter (filterItem perimetres)
    , timestamp := changes.timestamp }

/-- MAX_PAGES from monitor.js. -/
def MAX_PAGES : Nat := 1500

/-- Outcome of one fetch attempt for a page: a parsed successful
response (result.data || [] together with result.meta?.total || 0), or a
failure (non-ok status, network error, or a parse error — the source
routes all of these through the same catch). -/
inductive FetchResult where
  | ok (data : List Record) (total : Nat)
  | fail
deriving DecidableEq, Repr

/-- Observable events of the fetch loop: a fetch attempt (page and
attempt index, 0 for the first try and 1 for the retry), a sleep of the
given number of milliseconds, and the page-ceiling warning. -/
inductive Event where
  | fetchEv (page attempt : Nat)
  | sleepEv (ms : Nat)
  | warnEv
deriving DecidableEq, Repr

/-- The mutable state of the while loop of fetchAllData, extended with
the event trace. -/
structure FetchState where
  allData : List Record
  page : Nat
  hasMore : Bool
  total : Nat
  trace : List Event
deriving DecidableEq, Repr

/-- The while loop of fetchAllData, indexed by fuel; the server is a
function from page number and attempt index to the outcome of that fetch
attempt.  A result of none means the loop has not exited within the
given number of iterations, so a result of none for every fuel is
divergence.  The branch structure follows the source: on a successful
first attempt the accumulated data, the reported total, hasMore and the
page counter are updated and the page ceiling is checked; on a failed
first attempt the source sleeps 2000 ms and retries the same page once,
and the retry path updates only the data and the page counter (neither
hasMore, nor the total, nor the ceiling check) before continuing, while
a failed retry breaks out of the loop. -/
def fetchLoop (server : Nat → Nat → FetchResult) : Nat → FetchState → Option FetchState
  | 0, _ => none
  | fuel + 1, s =>
    if s.hasMore = false then some s
    else
      match server s.page 0 with
      | .ok pageData tot =>
          let allData := s.allData ++ pageData
          let hasMore := decide (allData.length < tot) && !pageData.isEmpty
          let page := s.page + 1
          let trace := s.trace ++ [Event.fetchEv s.page 0] ++
            (if hasMore then [Event.sleepEv 50] else [])
          if MAX_PAGES < page then
            some { allData := allData, page := page, hasMore := hasMore,
                   total := tot, trace := trace ++ [Event.warnEv] }
          else
            fetchLoop server fuel
              { allData := allData, page := page, hasMore := hasMore,
                total := tot, trace := trace }
      | .fail =>
          let trace := s.trace ++
            [Event.fetchEv s.page 0, Event.sleepEv 2000, Event.fetchEv s.page 1]
          match server s.page 1 with
          | .ok pageData _ =>
              fetchLoop server fuel
                { s with allData := s.allData ++ pageData,
                         page := s.page + 1, trace := trace }
          | .fail => some { s with trace := trace }

/-- The initial loop state of fetchAllData: no data, page 1, hasMore
true, total 0, empty trace. -/
def initFetchState : FetchState :=
  { allData := [], page := 1, hasMore := true, total := 0, trace := [] }

/-- fetchAllData from monitor.js, as the fuel-indexed loop started from
the initial state; the returned value is the accumulated record list. -/
def fetchAllData (server : Nat → Nat → FetchResult) (fuel : Nat) :
    Option (List Record) :=
  (fetchLoop server fuel initFetchState).map (fun s => s.allData)

/-- A server on which every first attempt fails and every retry succeeds
with an empty page. -/
def retryOnlyServer : Nat → Nat → FetchResult :=
  fun _ attempt => if attempt = 0 then .fail else .ok [] 0

/-- The outcome of one run of main that is relevant to persistence: the
snapshot baseline on disk after the run, the exit code, and the change
set that was computed (none on a fatal empty fetch and on a first run). -/
structure RunResult where
  baseline : Snapshot
  exitCode : Nat
  changes : Option Changes
deriving DecidableEq, Repr

/-- The persistence-relevant control flow of main, applied to the loaded
previous baseline and the completed output of fetchAllData: when the
fetch yielded zero records the run exits with code 1 before
saveCurrentState runs, so the baseline on disk stays the previous one;
otherwise saveCurrentState persists the index of the full fetched data,
and the diff is computed only when the previous baseline was nonempty. -/
def mainModel (previousState : Snapshot) (currentData : List Record)
    (ts : String) : RunResult :=
  let isFirstRun := previousState.length = 0
  if currentData.length = 0 then
    { baseline := previousState, exitCode := 1, changes := none }
  else
    let currentState := saveCurrentState currentData
    if isFirstRun then
      { baseline := currentState, exitCode := 0, changes := none }
    else
      { baseline := currentState, exitCode := 0,
        changes := some (detectChanges previousState currentData ts) }

/-! Helper lemmas about the embedding. -/

/-- A list maps to nil under filterMap when every element maps to none. -/
lemma filterMap_eq_nil_of {α β : Type} (f : α → Option β) :
    ∀ l : List α, (∀ a ∈ l, f a = none) → l.filterMap f = [] := by
  intro l
  induction l with
  | nil => intro _; rfl
  | cons x xs ih =>
      intro h
      rw [List.filterMap_cons, h x (by simp)]
      exact ih (fun a ha => h a (by simp [ha]))

/-- Pre-filtering by g does not change filterMap when f is none wherever
g is false. -/
lemma filterMap_filter_of_none {α β : Type} (f : α → Option β) (g : α → Bool)
    (h : ∀ x, g x = false → f x = none) :
    ∀ l : List α, (l.filter g).filterMap f = l.filterMap f := by
  intro l
  induction l with
  | nil => rfl
  | cons x xs ih =>
      by_cases hg : g x = true
      · simp [List.filter_cons, hg, List.filterMap_cons, ih]
      · have : g x = false := by revert hg; cases g x <;> simp
        simp [List.filter_cons, this, List.filterMap_cons, h x this, ih]

lemma addedOf_eq_some {P : Snapshot} {item : Record} {e : ChangeEntry} :
    addedOf P item = some e ↔
      jsTruthy (getId item) = true ∧ lookupSnap P (jsStr (getId item)) = none ∧
        e = addedEntry item := by
  cases ht : jsTruthy (getId item) with
  | false => simp [addedOf, ht]
  | true =>
      cases hl : lookupSnap P (jsStr (getId item)) with
      | none => simp [addedOf, ht, hl, eq_comm]
      | some p => simp [addedOf, ht, hl]

lemma modifiedOf_eq_some {P : Snapshot} {item : Record} {e : ChangeEntry} :
    modifiedOf P item = some e ↔
      ∃ previous, jsTruthy (getId item) = true ∧
        lookupSnap P (jsStr (getId item)) = some previous ∧
        fieldDiffs previous item ≠ [] ∧
        e = modifiedEntry previous item (fieldDiffs previous item) := by
  cases ht : jsTruthy (getId item) with
  | false => simp [modifiedOf, ht]
  | true =>
      cases hl : lookupSnap P (jsStr (getId item)) with
      | none => simp [modifiedOf, ht, hl]
      | some previous =>
          cases hfd : fieldDiffs previous item with
          | nil => simp [modifiedOf, ht, hl, hfd]
          | cons a l =>
              have hred : modifiedOf P item =
                  some (modifiedEntry previous item (fieldDiffs previous item)) := by
                simp [modifiedOf, ht, hl, hfd]
              rw [hred]
              constructor
              · intro h
                exact ⟨previous, rfl, rfl, by rw [hfd]; simp,
                  (Option.some_inj.mp h).symm⟩
              · intro ⟨p, _, hlp, _, he⟩
                have hp : p = previous := (Option.some_inj.mp hlp).symm
                subst hp
                rw [he]

lemma removedOf_eq_some {idx : Snapshot} {kv : String × Record} {e : ChangeEntry} :
    removedOf idx kv = some e ↔
      hasKeySnap idx kv.1 = false ∧ e = removedEntry kv.1 kv.2 := by
  unfold removedOf
  split
  · rename_i h
    simp [h]
  · rename_i h
    have : hasKeySnap idx kv.1 = false := by revert h; cases hasKeySnap idx kv.1 <;> simp
    simp [this, eq_comm]

lemma lookupSnap_eq_none_iff {m : Snapshot} {k : String} :
    lookupSnap m k = none ↔ ∀ kv ∈ m, kv.1 ≠ k := by
  simp [lookupSnap, List.find?_eq_none]

lemma lookupSnap_isSome_iff {m : Snapshot} {k : String} :
    (lookupSnap m k).isSome = true ↔ ∃ kv ∈ m, kv.1 = k := by
  simp [lookupSnap, List.find?_isSome]

lemma lookupSnap_eq_some_mem {m : Snapshot} {k : String} {r : Record}
    (h : lookupSnap m k = some r) : (k, r) ∈ m := by
  unfold lookupSnap at h
  cases hf : List.find? (fun kv => kv.1 == k) m with
  | none => rw [hf] at h; exact absurd h (by simp)
  | some kv =>
      rw [hf] at h
      have hmem := List.mem_of_find?_eq_some hf
      have hkey : kv.1 = k := by simpa using List.find?_some hf
      cases kv with
      | mk a b =>
          simp at hkey h
          rw [← hkey, ← h]
          exact hmem

lemma lookupSnap_of_mem_nodup {m : Snapshot} {k : String} {r : Record}
    (hnd : (m.map Prod.fst).Nodup) (hmem : (k, r) ∈ m) :
    lookupSnap m k = some r := by
  induction m with
  | nil => exact absurd hmem (List.not_mem_nil _)
  | cons kv tl ih =>
      rw [List.map_cons, List.nodup_cons] at hnd
      rcases List.mem_cons.mp hmem with heq | htl
      · rw [← heq]
        unfold lookupSnap
        simp [List.find?_cons_of_pos]
      · have hk : kv.1 ≠ k := by
          intro hkk
          exact hnd.1 (by
            rw [hkk]
            exact List.mem_map.mpr ⟨(k, r), htl, rfl⟩)
        unfold lookupSnap
        rw [List.find?_cons_of_neg _ (by simp [hk])]
        exact ih hnd.2 htl

lemma hasKeySnap_jsInsert (m : Snapshot) (k' : String) (v : Record) (k : String) :
    hasKeySnap (jsInsert m k' v) k = (hasKeySnap m k || (k' == k)) := by
  by_cases hk : k' = k
  · subst hk
    unfold jsInsert hasKeySnap
    split
    · rename_i h
      rcases List.any_eq_true.mp h with ⟨kv, hmem, hkv⟩
      have hmapped :
          (m.map (fun kv => if kv.1 == k' then (k', v) else kv)).any
            (fun kv => kv.1 == k') = true := by
        apply List.any_eq_true.mpr
        exact ⟨(k', v), List.mem_map.mpr ⟨kv, hmem, by simp [hkv]⟩, by simp⟩
      simp only [beq_self_eq_true, Bool.or_true]
      exact hmapped
    · simp [List.any_append]
  · have hbk : (k' == k) = false := by simp [hk]
    unfold jsInsert hasKeySnap
    split
    · rw [List.any_map]
      have hfun :
          ((fun kv : String × Record => kv.1 == k) ∘
            (fun kv => if kv.1 == k' then (k', v) else kv)) =
          (fun kv : String × Record => kv.1 == k) := by
        funext kv
        by_cases hkv : kv.1 = k'
        · simp [Function.comp, hkv, hbk, hk]
        · simp [Function.comp, hkv]
      rw [hfun, hbk, Bool.or_false]
    · simp [List.any_append, hbk]

lemma indexById_foldl_hasKey (k : String) :
    ∀ (data : List Record) (m : Snapshot),
      hasKeySnap
        (data.foldl
          (fun m item =>
            if jsTruthy (getId item) then jsInsert m (jsStr (getId item)) item else m)
          m) k
      = (hasKeySnap m k ||
          data.any (fun r => jsTruthy (getId r) && (jsStr (getId r) == k))) := by
  intro data
  induction data with
  | nil => intro m; simp
  | cons r rs ih =>
      intro m
      rw [List.foldl_cons]
      by_cases hr : jsTruthy (getId r) = true
      · simp only [hr, if_true, List.any_cons, Bool.true_and]
        rw [ih, hasKeySnap_jsInsert, Bool.or_assoc]
      · have hr' : jsTruthy (getId r) = false := by
          revert hr; cases jsTruthy (getId r) <;> simp
        simp only [hr', if_false, List.any_cons, Bool.false_and, Bool.false_or]
        exact ih m

lemma hasKeySnap_indexById (data : List Record) (k : String) :
    hasKeySnap (indexById data) k =
      data.any (fun r => jsTruthy (getId r) && (jsStr (getId r) == k)) := by
  have h := indexById_foldl_hasKey k data []
  simpa [indexById, hasKeySnap] using h

lemma hasKeySnap_indexById_true_iff {data : List Record} {k : String} :
    hasKeySnap (indexById data) k = true ↔
      ∃ r ∈ data, jsTruthy (getId r) = true ∧ jsStr (getId r) = k := by
  rw [hasKeySnap_indexById]
  simp [List.any_eq_true]

lemma hasKeySnap_indexById_false_iff {data : List Record} {k : String} :
    hasKeySnap (indexById data) k = false ↔
      ∀ r ∈ data, jsTruthy (getId r) = true → jsStr (getId r) ≠ k := by
  rw [← Bool.not_eq_true, hasKeySnap_indexById_true_iff]
  simp

lemma mem_jsInsert {m : Snapshot} {k : String} {v : Record} {kv : String × Record}
    (h : kv ∈ jsInsert m k v) : kv ∈ m ∨ kv = (k, v) := by
  unfold jsInsert at h
  split at h
  · rcases List.mem_map.mp h with ⟨p, hp, he⟩
    by_cases hpk : p.1 = k
    · right; rw [← he]; simp [hpk]
    · left; rw [← he]; simp [hpk]; exact hp
  · rcases List.mem_append.mp h with h1 | h2
    · left; exact h1
    · right; simpa using h2

lemma indexById_foldl_truthy :
    ∀ (data : List Record) (m : Snapshot),
      (∀ kv ∈ m, jsTruthy (getId kv.2) = true) →
      ∀ kv ∈ data.foldl
          (fun m item =>
            if jsTruthy (getId item) then jsInsert m (jsStr (getId item)) item else m)
          m,
        jsTruthy (getId kv.2) = true := by
  intro data
  induction data with
  | nil => intro m hm kv hkv; exact hm kv (by simpa using hkv)
  | cons r rs ih =>
      intro m hm kv hkv
      rw [List.foldl_cons] at hkv
      by_cases hr : jsTruthy (getId r) = true
      · simp only [hr, if_true] at hkv
        refine ih (jsInsert m (jsStr (getId r)) r) ?_ kv hkv
        intro p hp
        rcases mem_jsInsert hp with h1 | h2
        · exact hm p h1
        · rw [h2]; exact hr
      · have hr' : jsTruthy (getId r) = false := by
          revert hr; cases jsTruthy (getId r) <;> simp
        simp only [hr', if_false] at hkv
        exact ih m hm kv hkv

lemma mem_indexById_truthy {data : List Record} {kv : String × Record}
    (h : kv ∈ indexById data) : jsTruthy (getId kv.2) = true :=
  indexById_foldl_truthy data [] (by simp) kv h

lemma indexById_filter (data : List Record) :
    indexById (data.filter (fun r => jsTruthy (getId r))) = indexById data := by
  unfold indexById
  generalize ([] : Snapshot) = m
  induction data generalizing m with
  | nil => rfl
  | cons r rs ih =>
      by_cases hr : jsTruthy (getId r) = true
      · rw [List.filter_cons_of_pos (by simp [hr]), List.foldl_cons, List.foldl_cons]
        simp only [hr, if_true]
        exact ih _
      · have hr' : jsTruthy (getId r) = false := by
          revert hr; cases jsTruthy (getId r) <;> simp
        rw [List.filter_cons_of_neg (by simp [hr']), List.foldl_cons]
        simp only [hr', if_false]
        exact ih _

/-- A key occurs in a change sequence when some entry of it renders (via
String conversion of its id property) to that key. -/
def KeyIn (l : List ChangeEntry) (k : String) : Prop :=
  ∃ e ∈ l, jsStr e.id = k

lemma keyIn_nouveaux_iff {P : Snapshot} {C : List Record} {ts k : String} :
    KeyIn (detectChanges P C ts).nouveaux k ↔
      ∃ r ∈ C, jsTruthy (getId r) = true ∧ jsStr (getId r) = k ∧
        lookupSnap P k = none := by
  unfold KeyIn detectChanges
  simp only [List.mem_filterMap]
  constructor
  · intro ⟨e, ⟨r, hrC, hsome⟩, hk⟩
    rcases addedOf_eq_some.mp hsome with ⟨ht, hl, he⟩
    have hkey : jsStr (getId r) = k := by
      rw [he] at hk
      simpa [addedEntry] using hk
    rw [hkey] at hl
    exact ⟨r, hrC, ht, hkey, hl⟩
  · intro ⟨r, hrC, ht, hkey, hl⟩
    refine ⟨addedEntry r, ⟨r, hrC, addedOf_eq_some.mpr ⟨ht, ?_, rfl⟩⟩, ?_⟩
    · rw [hkey]; exact hl
    · simpa [addedEntry] using hkey

lemma keyIn_modifies_iff {P : Snapshot} {C : List Record} {ts k : String} :
    KeyIn (detectChanges P C ts).modifies k ↔
      ∃ r ∈ C, ∃ previous, jsTruthy (getId r) = true ∧ jsStr (getId r) = k ∧
        lookupSnap P k = some previous ∧ fieldDiffs previous r ≠ [] := by
  unfold KeyIn detectChanges
  simp only [List.mem_filterMap]
  constructor
  · intro ⟨e, ⟨r, hrC, hsome⟩, hk⟩
    rcases modifiedOf_eq_some.mp hsome with ⟨previous, ht, hl, hne, he⟩
    have hkey : jsStr (getId r) = k := by
      rw [he] at hk
      simpa [modifiedEntry] using hk
    rw [hkey] at hl
    exact ⟨r, hrC, previous, ht, hkey, hl, hne⟩
  · intro ⟨r, hrC, previous, ht, hkey, hl, hne⟩
    refine ⟨modifiedEntry previous r (fieldDiffs previous r),
      ⟨r, hrC, modifiedOf_eq_some.mpr ⟨previous, ht, ?_, hne, rfl⟩⟩, ?_⟩
    · rw [hkey]; exact hl
    · simpa [modifiedEntry] using hkey

lemma keyIn_supprimes_iff {P : Snapshot} {C : List Record} {ts k : String} :
    KeyIn (detectChanges P C ts).supprimes k ↔
      ∃ kv ∈ P, kv.1 = k ∧ hasKeySnap (indexById C) k = false := by
  unfold KeyIn detectChanges
  simp only [List.mem_filterMap]
  constructor
  · intro ⟨e, ⟨kv, hkvP, hsome⟩, hk⟩
    rcases removedOf_eq_some.mp hsome with ⟨hkey, he⟩
    have hk1 : kv.1 = k := by
      rw [he] at hk
      simpa [removedEntry, jsStr] using hk
    rw [hk1] at hkey
    exact ⟨kv, hkvP, hk1, hkey⟩
  · intro ⟨kv, hkvP, hk1, hkey⟩
    refine ⟨removedEntry kv.1 kv.2, ⟨kv, hkvP, removedOf_eq_some.mpr ⟨?_, rfl⟩⟩, ?_⟩
    · rw [hk1]; exact hkey
    · simpa [removedEntry, jsStr] using hk1

/-- Comparing a record with itself yields no field modification. -/
lemma fieldDiffs_self (r : Record) : fieldDiffs r r = [] := by
  apply filterMap_eq_nil_of
  intro f _
  simp

/-- A snapshot rendered as a record sequence (its values in key order). -/
def snapToSeq (m : Snapshot) : List Record := m.map Prod.snd

/-- Records with a falsy id change nothing in the diff. -/
lemma detectChanges_filter (P : Snapshot) (C : List Record) (ts : String) :
    detectChanges P (C.filter (fun r => jsTruthy (getId r))) ts =
      detectChanges P C ts := by
  unfold detectChanges
  have h1 : ∀ x, jsTruthy (getId x) = false → addedOf P x = none := by
    intro x hx
    simp [addedOf, hx]
  have h2 : ∀ x, jsTruthy (getId x) = false → modifiedOf P x = none := by
    intro x hx
    simp [modifiedOf, hx]
  rw [filterMap_filter_of_none _ _ h1, filterMap_filter_of_none _ _ h2,
    indexById_filter]

/-! Shared concrete data for the evaluation witnesses. -/

def recA : Record := [("id", .num 1), ("name", .str "A"), ("city", .str "Paris")]

def recB : Record := [("id", .num 2), ("name", .str "B"), ("city", .str "Lyon")]

def recC : Record := [("id", .num 3), ("name", .str "C")]

def recNoId : Record := [("name", .str "anonymous")]

def snapW : Snapshot := [("1", recA), ("2", recB)]

def seqW : List Record := [recB, recC]

/-! Claims about the diff engine. -/

/-- C1: for keyed snapshots P and C (C given as the current record
sequence), an id present only in C lands in nouveaux and in neither
modifies nor supprimes; an id present only in P lands in supprimes and
in neither nouveaux nor modifies; an id present in both whose monitored
fields are all equal after normalisation lands in none of the three. -/
theorem C1_diff_classification (P : Snapshot) (C : List Record) (ts k : String) :
    ((∃ r ∈ C, jsTruthy (getId r) = true ∧ jsStr (getId r) = k) →
      lookupSnap P k = none →
        KeyIn (detectChanges P C ts).nouveaux k ∧
        ¬ KeyIn (detectChanges P C ts).modifies k ∧
        ¬ KeyIn (detectChanges P C ts).supprimes k) ∧
    ((lookupSnap P k).isSome = true →
      (∀ r ∈ C, jsTruthy (getId r) = true → jsStr (getId r) ≠ k) →
        KeyIn (detectChanges P C ts).supprimes k ∧
        ¬ KeyIn (detectChanges P C ts).nouveaux k ∧
        ¬ KeyIn (detectChanges P C ts).modifies k) ∧
    (∀ previous, lookupSnap P k = some previous →
      (∃ r ∈ C, jsTruthy (getId r) = true ∧ jsStr (getId r) = k) →
      (∀ r ∈ C, jsTruthy (getId r) = true → jsStr (getId r) = k →
        fieldDiffs previous r = []) →
        ¬ KeyIn (detectChanges P C ts).nouveaux k ∧
        ¬ KeyIn (detectChanges P C ts).modifies k ∧
        ¬ KeyIn (detectChanges P C ts).supprimes k) := by
  refine ⟨?_, ?_, ?_⟩
  · intro ⟨r, hrC, ht, hkey⟩ hnone
    refine ⟨keyIn_nouveaux_iff.mpr ⟨r, hrC, ht, hkey, hnone⟩, ?_, ?_⟩
    · intro hmod
      rcases keyIn_modifies_iff.mp hmod with ⟨r2, _, prev, _, _, hl, _⟩
      rw [hnone] at hl
      exact Option.noConfusion hl
    · intro hsup
      rcases keyIn_supprimes_iff.mp hsup with ⟨kv, hkvP, hk1, _⟩
      exact lookupSnap_eq_none_iff.mp hnone kv hkvP hk1
  · intro hsome hC
    rcases lookupSnap_isSome_iff.mp hsome with ⟨kv, hkvP, hk1⟩
    have hfalse : hasKeySnap (indexById C) k = false :=
      hasKeySnap_indexById_false_iff.mpr hC
    refine ⟨keyIn_supprimes_iff.mpr ⟨kv, hkvP, hk1, hfalse⟩, ?_, ?_⟩
    · intro hn
      rcases keyIn_nouveaux_iff.mp hn with ⟨r, hrC, ht, hkey, _⟩
      exact hC r hrC ht hkey
    · intro hm
      rcases keyIn_modifies_iff.mp hm with ⟨r, hrC, prev, ht, hkey, _, _⟩
      exact hC r hrC ht hkey
  · intro previous hlsome hex hall
    refine ⟨?_, ?_, ?_⟩
    · intro hn
      rcases keyIn_nouveaux_iff.mp hn with ⟨r, _, _, _, hnone⟩
      rw [hlsome] at hnone
      exact Option.noConfusion hnone
    · intro hm
      rcases keyIn_modifies_iff.mp hm with ⟨r, hrC, prev, ht, hkey, hl, hne⟩
      rw [hlsome] at hl
      have hpp : previous = prev := Option.some_inj.mp hl
      exact hne (hpp ▸ hall r hrC ht hkey)
    · intro hs
      rcases keyIn_supprimes_iff.mp hs with ⟨kv, _, _, hfalse⟩
      rcases hex with ⟨r, hrC, ht, hkey⟩
      exact hasKeySnap_indexById_false_iff.mp hfalse r hrC ht hkey

/-- Evaluation of C1 on concrete data: id 3 only in the current data, id
1 only in the previous snapshot, id 2 in both and unchanged. -/
theorem C1_diff_classification_witness :
    (KeyIn (detectChanges snapW seqW "t").nouveaux "3" ∧
      ¬ KeyIn (detectChanges snapW seqW "t").modifies "3" ∧
      ¬ KeyIn (detectChanges snapW seqW "t").supprimes "3") ∧
    (KeyIn (detectChanges snapW seqW "t").supprimes "1" ∧
      ¬ KeyIn (detectChanges snapW seqW "t").nouveaux "1" ∧
      ¬ KeyIn (detectChanges snapW seqW "t").modifies "1") ∧
    (¬ KeyIn (detectChanges snapW seqW "t").nouveaux "2" ∧
      ¬ KeyIn (detectChanges snapW seqW "t").modifies "2" ∧
      ¬ KeyIn (detectChanges snapW seqW "t").supprimes "2") :=
  ⟨(C1_diff_classification snapW seqW "t" "3").1 (by decide) (by decide),
   (C1_diff_classification snapW seqW "t" "1").2.1 (by decide) (by decide),
   (C1_diff_classification snapW seqW "t" "2").2.2 recB (by decide) (by decide)
     (by decide)⟩

/-- C7: in every change set produced by the diff, a given id lies in at
most one of the three sequences, and every modified entry carries at
least one field-level modification. -/
theorem C7_changeset_invariant (P : Snapshot) (C : List Record) (ts k : String) :
    ¬ (KeyIn (detectChanges P C ts).nouveaux k ∧
        KeyIn (detectChanges P C ts).modifies k) ∧
    ¬ (KeyIn (detectChanges P C ts).nouveaux k ∧
        KeyIn (detectChanges P C ts).supprimes k) ∧
    ¬ (KeyIn (detectChanges P C ts).modifies k ∧
        KeyIn (detectChanges P C ts).supprimes k) ∧
    ∀ e ∈ (detectChanges P C ts).modifies, e.modifications ≠ [] := by
  refine ⟨?_, ?_, ?_, ?_⟩
  · intro ⟨hn, hm⟩
    rcases keyIn_nouveaux_iff.mp hn with ⟨r, _, _, _, hnone⟩
    rcases keyIn_modifies_iff.mp hm with ⟨r2, _, prev, _, _, hl, _⟩
    rw [hnone] at hl
    exact Option.noConfusion hl
  · intro ⟨hn, hs⟩
    rcases keyIn_nouveaux_iff.mp hn with ⟨r, hrC, ht, hkey, _⟩
    rcases keyIn_supprimes_iff.mp hs with ⟨kv, _, _, hfalse⟩
    exact hasKeySnap_indexById_false_iff.mp hfalse r hrC ht hkey
  · intro ⟨hm, hs⟩
    rcases keyIn_modifies_iff.mp hm with ⟨r, hrC, prev, ht, hkey, _, _⟩
    rcases keyIn_supprimes_iff.mp hs with ⟨kv, _, _, hfalse⟩
    exact hasKeySnap_indexById_false_iff.mp hfalse r hrC ht hkey
  · intro e he
    rcases List.mem_filterMap.mp he with ⟨r, _, hsome⟩
    rcases modifiedOf_eq_some.mp hsome with ⟨previous, _, _, hne, he2⟩
    rw [he2]
    simpa [modifiedEntry] using hne

/-- Evaluation of C7 on concrete data. -/
theorem C7_changeset_invariant_witness :
    ¬ (KeyIn (detectChanges snapW seqW "t").nouveaux "2" ∧
        KeyIn (detectChanges snapW seqW "t").modifies "2") :=
  (C7_changeset_invariant snapW seqW "t" "2").1

/-- C9: diffing a well-formed snapshot against itself rendered as a
record sequence yields empty nouveaux, modifies and supprimes. -/
theorem C9_diff_idempotent (P : Snapshot) (ts : String)
    (hnd : (P.map Prod.fst).Nodup)
    (hwf : ∀ kv ∈ P, jsTruthy (getId kv.2) = true ∧ jsStr (getId kv.2) = kv.1) :
    detectChanges P (snapToSeq P) ts =
      { nouveaux := [], modifies := [], supprimes := [], timestamp := ts } := by
  have hn : (snapToSeq P).filterMap (addedOf P) = [] := by
    apply filterMap_eq_nil_of
    intro r hr
    rcases List.mem_map.mp hr with ⟨kv, hkvP, hr2⟩
    subst hr2
    rcases hwf kv hkvP with ⟨ht, hk⟩
    cases hl : lookupSnap P (jsStr (getId kv.2)) with
    | none =>
        exfalso
        rw [hk] at hl
        exact lookupSnap_eq_none_iff.mp hl kv hkvP rfl
    | some p => simp [addedOf, ht, hl]
  have hm : (snapToSeq P).filterMap (modifiedOf P) = [] := by
    apply filterMap_eq_nil_of
    intro r hr
    rcases List.mem_map.mp hr with ⟨kv, hkvP, hr2⟩
    subst hr2
    rcases hwf kv hkvP with ⟨ht, hk⟩
    have hl : lookupSnap P (jsStr (getId kv.2)) = some kv.2 := by
      rw [hk]
      exact lookupSnap_of_mem_nodup hnd (by cases kv; exact hkvP)
    simp [modifiedOf, ht, hl, fieldDiffs_self]
  have hs : P.filterMap (removedOf (indexById (snapToSeq P))) = [] := by
    apply filterMap_eq_nil_of
    intro kv hkvP
    rcases hwf kv hkvP with ⟨ht, hk⟩
    have hkey : hasKeySnap (indexById (snapToSeq P)) kv.1 = true :=
      hasKeySnap_indexById_true_iff.mpr
        ⟨kv.2, List.mem_map.mpr ⟨kv, hkvP, rfl⟩, ht, hk⟩
    simp [removedOf, hkey]
  unfold detectChanges
  rw [hn, hm, hs]

/-- Evaluation of C9 on a concrete snapshot. -/
theorem C9_diff_idempotent_witness :
    detectChanges snapW (snapToSeq snapW) "t" =
      { nouveaux := [], modifies := [], supprimes := [], timestamp := "t" } :=
  C9_diff_idempotent snapW "t" (by decide) (by decide)

/-- C3: null, undefined or absent, and the empty string collapse to the
same normal form; values differing only by type (100 versus "100") are
equal after string normalisation; in both cases the field comparison of
the diff produces no modification entry for that field. -/
theorem C3_normalisation_law :
    (∀ v : JsValue, (v = .null ∨ v = .undefined ∨ v = .str "") → normVal v = "") ∧
    normVal (.num 100) = normVal (.str "100") ∧
    (∀ field : String, field ∈ MONITORED_FIELDS →
      ∀ p c : Record, normVal (getField p field) = normVal (getField c field) →
        ∀ m ∈ fieldDiffs p c, m.champ ≠ field) ∧
    fieldDiffs [("name", .null)] [("name", .str "")] = [] ∧
    fieldDiffs [("daily_meal_count", .num 100)]
      [("daily_meal_count", .str "100")] = [] := by
  refine ⟨?_, by decide, ?_, by decide, by decide⟩
  · intro v hv
    rcases hv with h | h | h <;> rw [h] <;> rfl
  · intro field _ p c heq m hm
    rcases List.mem_filterMap.mp hm with ⟨f, _, hsome⟩
    simp only at hsome
    by_cases hcond : normVal (getField p f) ≠ normVal (getField c f)
    · rw [if_pos hcond] at hsome
      have hmf : m.champ = f := by
        rw [← Option.some_inj.mp hsome]
      intro hff
      rw [hmf] at hff
      rw [hff] at hcond
      exact hcond heq
    · rw [if_neg hcond] at hsome
      exact Option.noConfusion hsome

/-- Evaluation of C3: a null versus empty-string field produces no
modification entry, while a genuinely changed field produces an entry
for that field only. -/
theorem C3_normalisation_law_witness :
    normVal JsValue.null = "" ∧
    (Modification.mk "city" "Ville" (.str "X") (.str "Y")).champ ≠ "name" :=
  ⟨C3_normalisation_law.1 .null (Or.inl rfl),
   C3_normalisation_law.2.2.1 "name" (by decide)
     [("name", .null), ("city", .str "X")]
     [("name", .str ""), ("city", .str "Y")] (by decide) _ (by decide)⟩

/-- C8: records lacking an identifier are silently excluded: removing
them changes neither the diff nor the saved snapshot, and every record
stored in the indexed snapshot has a truthy identifier. -/
theorem C8_missing_id_excluded (P : Snapshot) (C : List Record) (ts : String) :
    detectChanges P (C.filter (fun r => jsTruthy (getId r))) ts =
      detectChanges P C ts ∧
    saveCurrentState (C.filter (fun r => jsTruthy (getId r))) =
      saveCurrentState C ∧
    ∀ kv ∈ saveCurrentState C, jsTruthy (getId kv.2) = true := by
  refine ⟨detectChanges_filter P C ts, indexById_filter C, ?_⟩
  intro kv hkv
  exact mem_indexById_truthy hkv

/-- Evaluation of C8 on concrete data containing a record without id. -/
theorem C8_missing_id_excluded_witness :
    jsTruthy (getId recA) = true :=
  (C8_missing_id_excluded snapW [recNoId, recA] "t").2.2 ("1", recA) (by decide)

/-! Claims about the scope filter. -/

/-- Retention rule of the specification for added and removed entries:
current supervising authority in scope, or current region in scope. -/
def retainSpec (scopeTokens : List String) (e : ChangeEntry) : Bool :=
  includesVal scopeTokens e.ministere || includesVal scopeTokens e.region

/-- Retention rule of the specification for modified entries, following
the words of the claim: additionally retained when the previous
supervising authority is a scope token (with no further condition). -/
def retainSpecModified (scopeTokens : List String) (e : ChangeEntry) : Bool :=
  retainSpec scopeTokens e || includesVal scopeTokens e.ancienMinistere

/-- The scope filter exactly as the claim states it, for comparison with
the implementation. -/
def filterForScopeClaim (changes : Changes) (scopeTokens : List String) : Changes :=
  if scopeTokens.contains "ALL" then changes
  else
    { nouveaux := changes.nouveaux.filter (retainSpec scopeTokens)
    , modifies := changes.modifies.filter (retainSpecModified scopeTokens)
    , supprimes := changes.supprimes.filter (retainSpec scopeTokens)
    , timestamp := changes.timestamp }

/-- Retention rule for modified entries as the implementation has it:
the previous supervising authority must also be truthy (non-empty). -/
def retainSpecModifiedAmended (scopeTokens : List String) (e : ChangeEntry) : Bool :=
  retainSpec scopeTokens e ||
  (jsTruthy e.ancienMinistere && includesVal scopeTokens e.ancienMinistere)

/-- The scope filter as amended: identical to the claim except for the
truthiness requirement on the previous supervising authority. -/
def filterForScopeAmended (changes : Changes) (scopeTokens : List String) : Changes :=
  if scopeTokens.contains "ALL" then changes
  else
    { nouveaux := changes.nouveaux.filter (retainSpec scopeTokens)
    , modifies := changes.modifies.filter (retainSpecModifiedAmended scopeTokens)
    , supprimes := changes.supprimes.filter (retainSpec scopeTokens)
    , timestamp := changes.timestamp }

/-- A modified entry whose previous supervising authority is the empty
string (a detachment recorded from an empty previous value). -/
def entryEmptyPrev : ChangeEntry :=
  { id := .num 7
  , etablissement := [("id", .num 7), ("name", .str "E"),
      ("line_ministry", .str "X"), ("region_lib", .str "Y")]
  , ministere := .str "X"
  , region := .str "Y"
  , ancienMinistere := .str ""
  , modifications := [Modification.mk "line_ministry" "Ministere de tutelle"
      (.str "") (.str "X")] }

/-- A change set holding only that modified entry. -/
def changesEmptyPrev : Changes :=
  { nouveaux := [], modifies := [entryEmptyPrev], supprimes := [], timestamp := "t" }

/-- C2 counterexample: with scope-token list [""] the claim retains the
modified entry whose previous supervising authority is "" (it is a scope
token), but the implementation drops it because the truthiness guard on
item.ancienMinistere fails on the empty string. -/
theorem C2_filter_scope_counterexample :
    filterForScopeClaim changesEmptyPrev [""] ≠
      filterChangesForSubscriber changesEmptyPrev [""] ∧
    (filterForScopeClaim changesEmptyPrev [""]).modifies = [entryEmptyPrev] ∧
    (filterChangesForSubscriber changesEmptyPrev [""]).modifies = [] := by
  refine ⟨by decide, by decide, by decide⟩

/-- C2 amended: for change sets whose added and removed entries carry no
previous supervising authority (as the data model guarantees), the
implementation equals the claimed filter amended with a truthiness
requirement on the previous supervising authority of modified entries;
in particular the wildcard returns the input unchanged and each output
sequence is the order-preserving filter of the input sequence. -/
theorem C2_filter_scope_amended (changes : Changes) (scopeTokens : List String)
    (hn : ∀ e ∈ changes.nouveaux, e.ancienMinistere = .undefined)
    (hs : ∀ e ∈ changes.supprimes, e.ancienMinistere = .undefined) :
    filterChangesForSubscriber changes scopeTokens =
      filterForScopeAmended changes scopeTokens := by
  unfold filterChangesForSubscriber filterForScopeAmended
  by_cases hall : scopeTokens.contains "ALL" = true
  · rw [if_pos hall, if_pos hall]
  · rw [if_neg hall, if_neg hall]
    have h1 : changes.nouveaux.filter (filterItem scopeTokens) =
        changes.nouveaux.filter (retainSpec scopeTokens) :=
      List.filter_congr (fun e he => by
        simp [filterItem, retainSpec, hn e he, jsTruthy])
    have h2 : changes.modifies.filter (filterItem scopeTokens) =
        changes.modifies.filter (retainSpecModifiedAmended scopeTokens) :=
      List.filter_congr (fun e _ => by
        simp [filterItem, retainSpecModifiedAmended, retainSpec, Bool.or_assoc])
    have h3 : changes.supprimes.filter (filterItem scopeTokens) =
        changes.supprimes.filter (retainSpec scopeTokens) :=
      List.filter_congr (fun e he => by
        simp [filterItem, retainSpec, hs e he, jsTruthy])
    rw [h1, h2, h3]

/-- Evaluation of the amended C2 on the concrete change set. -/
theorem C2_filter_scope_amended_witness :
    filterChangesForSubscriber changesEmptyPrev ["Justice"] =
      filterForScopeAmended changesEmptyPrev ["Justice"] :=
  C2_filter_scope_amended changesEmptyPrev ["Justice"] (by decide) (by decide)

/-- C10: without the wildcard, the filter only selects entries: each
output sequence is a sublist of the corresponding input sequence (same
entry values, relative order preserved) and the timestamp is unchanged;
the embedding is pure, so the inputs themselves cannot be mutated. -/
theorem C10_filter_frame (changes : Changes) (scopeTokens : List String)
    (hall : scopeTokens.contains "ALL" = false) :
    List.Sublist (filterChangesForSubscriber changes scopeTokens).nouveaux
      changes.nouveaux ∧
    List.Sublist (filterChangesForSubscriber changes scopeTokens).modifies
      changes.modifies ∧
    List.Sublist (filterChangesForSubscriber changes scopeTokens).supprimes
      changes.supprimes ∧
    (filterChangesForSubscriber changes scopeTokens).timestamp =
      changes.timestamp := by
  simp only [filterChangesForSubscriber, hall, Bool.false_eq_true, if_false]
  exact ⟨List.filter_sublist _, List.filter_sublist _, List.filter_sublist _, trivial⟩

/-- Evaluation of C10 on the concrete change set. -/
theorem C10_filter_frame_witness :
    List.Sublist (filterChangesForSubscriber changesEmptyPrev ["Justice"]).modifies
      changesEmptyPrev.modifies :=
  (C10_filter_frame changesEmptyPrev ["Justice"] rfl).2.1

/-! Claims about the fetch loop. -/

/-- On the retry-only server the loop never exits, whatever the fuel:
the hasMore flag, the total and the page ceiling are only examined on
the non-error path, which this server never takes. -/
lemma fetchLoop_retryOnly_diverges :
    ∀ (fuel : Nat) (s : FetchState), s.hasMore = true →
      fetchLoop retryOnlyServer fuel s = none := by
  intro fuel
  induction fuel with
  | zero => intro s _; rfl
  | succ n ih =>
      intro s hs
      unfold fetchLoop
      rw [if_neg (by simp [hs])]
      simp only [retryOnlyServer, if_pos rfl]
      have : ¬ (1 = 0) := by decide
      rw [if_neg this]
      exact ih _ (by simp [hs])

/-- C4: the fetch loop does not always terminate.  On a server where
every first attempt fails and every retry succeeds with an empty page,
fetchAllData never completes for any amount of fuel, even though the
accumulated count (0) already equals the reported total (0): the retry
path skips the hasMore update and the page-ceiling check. -/
theorem C4_fetch_loop_divergence :
    ∀ fuel : Nat, fetchAllData retryOnlyServer fuel = none := by
  intro fuel
  unfold fetchAllData
  rw [fetchLoop_retryOnly_diverges fuel initFetchState rfl]
  rfl

/-- C5: when the first attempt at the current page fails, the loop
sleeps 2000 ms and retries that same page exactly once; if the retry
also fails it exits normally (no exception channel exists in the model,
matching the try/catch of the source) returning exactly the records
accumulated before the failing page; if the retry succeeds it continues
with the retried page appended. -/
theorem C5_retry_once_then_abort (server : Nat → Nat → FetchResult)
    (fuel : Nat) (s : FetchState) (hmore : s.hasMore = true)
    (hfail : server s.page 0 = .fail) :
    (server s.page 1 = .fail →
      fetchLoop server (fuel + 1) s =
        some { s with trace := s.trace ++
          [Event.fetchEv s.page 0, Event.sleepEv 2000, Event.fetchEv s.page 1] }) ∧
    (∀ d t, server s.page 1 = .ok d t →
      fetchLoop server (fuel + 1) s =
        fetchLoop server fuel
          { s with allData := s.allData ++ d, page := s.page + 1,
                   trace := s.trace ++
                     [Event.fetchEv s.page 0, Event.sleepEv 2000,
                      Event.fetchEv s.page 1] }) := by
  constructor
  · intro hretry
    unfold fetchLoop
    rw [if_neg (by simp [hmore]), hfail, hretry]
  · intro d t hretry
    conv =>
      lhs
      rw [fetchLoop]
    rw [if_neg (by simp [hmore]), hfail, hretry]

/-- A server that fails every attempt. -/
def failServer : Nat → Nat → FetchResult := fun _ _ => .fail

/-- Evaluation of C5: a double failure on page 1 exits after one retry
preceded by the 2000 ms backoff, returning the empty accumulation. -/
theorem C5_retry_once_then_abort_witness :
    fetchLoop failServer 1 initFetchState =
      some { initFetchState with trace := initFetchState.trace ++
        [Event.fetchEv initFetchState.page 0, Event.sleepEv 2000,
         Event.fetchEv initFetchState.page 1] } :=
  (C5_retry_once_then_abort failServer 0 initFetchState rfl rfl).1 rfl

/-! Claim about persistence in main. -/

/-- C6: the baseline is overwritten only with the index of the complete
fetched data, and a fatal empty fetch (exit code 1) leaves the previous
baseline unchanged; in every case the persisted baseline is either the
previous one or the index of the full fetch result, never a partial
state. -/
theorem C6_baseline_persistence (prev : Snapshot) (data : List Record)
    (ts : String) :
    (data = [] →
      mainModel prev data ts =
        { baseline := prev, exitCode := 1, changes := none }) ∧
    (data ≠ [] →
      (mainModel prev data ts).baseline = saveCurrentState data ∧
      (mainModel prev data ts).exitCode = 0) ∧
    ((mainModel prev data ts).baseline = prev ∨
      (mainModel prev data ts).baseline = saveCurrentState data) := by
  refine ⟨?_, ?_, ?_⟩
  · intro h
    subst h
    rfl
  · intro h
    have hlen : ¬ data.length = 0 := by simpa using h
    unfold mainModel
    rw [if_neg hlen]
    by_cases hfirst : prev.length = 0
    · simp [hfirst]
    · simp [hfirst]
  · unfold mainModel
    by_cases hl : data.length = 0
    · rw [if_pos hl]
      left
      rfl
    · rw [if_neg hl]
      by_cases hfirst : prev.length = 0
      · simp [hfirst]
      · simp [hfirst]

/-- Evaluation of C6: an empty fetch keeps the old baseline with exit
code 1; a successful fetch persists the index of the fetched data. -/
theorem C6_baseline_persistence_witness :
    mainModel snapW [] "t" =
      { baseline := snapW, exitCode := 1, changes := none } ∧
    (mainModel snapW [recA] "t").baseline = saveCurrentState [recA] :=
  ⟨(C6_baseline_persistence snapW [] "t").1 rfl,
   ((C6_baseline_persistence snapW [recA] "t").2.1 (by decide)).1⟩

end SpeMonitor
